import Mathlib

/-!
Shallow embedding of the match-scoring and assessment subsystem of the
hirely-ai-recruitment-platform repository.

Sources embedded here:
* the server-side scoring path of the ai-analysis serverless function
  (base 60, skill-overlap term worth 30, fixed experience bonus 10, label
  banding of the generated analysis sentence);
* the client-side `calculateMatchScore` of `ApplicantJobs.tsx`
  (weighted 40/30/30 redistribution);
* the assessment lifecycle: the generate-assessment serverless function,
  `AssessmentModal` (fetch-time guards, question normalization,
  `calculateScore`, `handleSubmit`) and the standalone `Assessment` page
  (its own guards, total-question count and `handleSubmit`);
* the `getAverageMatchScore` placeholder of `Candidates.tsx`.

Modelling conventions:
* JavaScript numbers are IEEE doubles; every value arising in these
  computations is a small rational, so arithmetic is modelled exactly over
  `ℚ`.  A computation that produces a non-finite double (`NaN` from `0/0`)
  is modelled by `none : Option ℚ`; in the scoring code the numerator is
  itself `0` whenever the denominator is `0`, so the non-finite value
  reached there is always `NaN`.
* `String.prototype.toLowerCase` is modelled character by character with
  `Char.toLower`, which agrees with JavaScript on the ASCII data involved;
  `String.prototype.includes` is modelled by an executable substring test.
* Timestamps are integers (epoch seconds); `Date` comparison is integer
  comparison.
* JSONB maps (`responses`) are association lists keyed by strings; an
  absent column value is `none` respectively `[]`.
* JavaScript truthiness is modelled explicitly where the code relies on
  it: a present array (even the empty one) is truthy, a present number is
  truthy iff it is nonzero, a present string is truthy iff it is nonempty.
-/

/-- Character-wise lower-casing, modelling `s.toLowerCase()` on ASCII data. -/
def jsToLower (s : String) : String := ⟨s.data.map Char.toLower⟩

/-- Boolean test that `pat` is an initial segment of `l`. -/
def isPre : List Char → List Char → Bool
  | [], _ => true
  | _ :: _, [] => false
  | a :: pat, b :: l => a == b && isPre pat l

/-- Boolean test that `pat` occurs contiguously inside `l`. -/
def hasSub (pat : List Char) : List Char → Bool
  | [] => pat.isEmpty
  | c :: l => isPre pat (c :: l) || hasSub pat l

/-- Model of `s.includes(sub)` (substring containment). -/
def jsIncludes (s sub : String) : Bool := hasSub sub.data s.data

/-- JavaScript division, `none` marking a non-finite result.  In the code
embedded below the numerator is `0` whenever the denominator is `0`, so
`none` stands for the `NaN` produced by `0/0`. -/
def jsDiv (a b : ℚ) : Option ℚ := if b = 0 then none else some (a / b)

/-- Skill-overlap filter of the ai-analysis function: the applicant skills
(lower-cased) that case-insensitively substring-match some required skill
in either direction. -/
def serverMatchingSkills (ps rs : List String) : List String :=
  (ps.map jsToLower).filter fun skill =>
    (rs.map jsToLower).any fun r => jsIncludes r skill || jsIncludes skill r

/-- Experience bonus of the ai-analysis function: +10 for a senior job
with at least 5 years, a mid job with at least 2, or a junior job with a
nonnegative count; the guard `profile?.experience_years &&
job?.experience_level` makes a zero year count or an empty level skip the
whole block. -/
def serverExpBoost (experienceYears : Option ℤ) (experienceLevel : Option String)
    (s1 : ℚ) : ℚ :=
  match experienceYears, experienceLevel with
  | some y, some lv =>
      if y ≠ 0 ∧ lv ≠ "" then
        if lv = "senior" ∧ 5 ≤ y then s1 + 10
        else if lv = "mid" ∧ 2 ≤ y then s1 + 10
        else if lv = "junior" ∧ 0 ≤ y then s1 + 10
        else s1
      else s1
  | _, _ => s1

/-- Final step of the ai-analysis scoring: `Math.min(Math.round(x), 100)`. -/
def serverFinish (x : ℚ) : ℤ := min (round x) 100

/-- Server-side scoring from the ai-analysis function: base 60, skill
overlap worth 30 when both skill arrays are present, fixed bonus 10 keyed
by the experience level, then `Math.min(Math.round(score), 100)`.
`none` is the `NaN` reached when `skills_required` is an empty array (the
guard `profile?.skills && job?.skills_required` treats `[]` as truthy and
`matchingSkills.length / requiredSkills.length` is then `0/0`). -/
def serverMatchScore (profileSkills : Option (List String)) (experienceYears : Option ℤ)
    (skillsRequired : Option (List String)) (experienceLevel : Option String) : Option ℤ :=
  let base : ℚ := 60
  let afterSkills : Option ℚ :=
    match profileSkills, skillsRequired with
    | some ps, some rs =>
        (jsDiv ((serverMatchingSkills ps rs).length : ℚ) ((rs.map jsToLower).length : ℚ)).map
          fun f => base + f * 30
    | _, _ => some base
  afterSkills.map fun s1 => serverFinish (serverExpBoost experienceYears experienceLevel s1)

/-- Qualitative label embedded in the generated analysis sentence. -/
def serverMatchLabel (score : ℤ) : String :=
  if 80 ≤ score then "Strong" else if 60 ≤ score then "Good" else "Moderate"

/-- Analysis sentence persisted with (and returned alongside) the score. -/
def serverAnalysis (score : ℤ) : String :=
  "Candidate shows " ++ toString score ++ "% compatibility with the role. " ++
    serverMatchLabel score ++ " match based on skills and experience."

/-- Applicant profile fields consumed by the client-side scorer. -/
structure ApplicantProfile where
  skills : Option (List String)
  experience_years : Option ℤ
deriving DecidableEq

/-- Skill filter of the client-side scorer: the required skills matched by
some profile skill, case-insensitively and in either direction. -/
def clientMatchingSkills (rs ps : List String) : List String :=
  rs.filter fun skill =>
    ps.any fun userSkill =>
      jsIncludes (jsToLower userSkill) (jsToLower skill) ||
        jsIncludes (jsToLower skill) (jsToLower userSkill)

/-- Experience sub-score of the client-side scorer (the `switch` on
`job.experience_level`; an unknown or absent level hits the default 75). -/
def experienceScore (experienceLevel : Option String) (y : ℤ) : ℚ :=
  match experienceLevel with
  | some lv =>
      if lv = "entry" then (if 0 ≤ y then 100 else 50)
      else if lv = "mid" then (if 3 ≤ y then 100 else max 0 ((y : ℚ) * 33))
      else if lv = "senior" then (if 7 ≤ y then 100 else max 0 ((y : ℚ) * 14))
      else if lv = "lead" then (if 10 ≤ y then 100 else max 0 ((y : ℚ) * 10))
      else 75
  | none => 75

/-- Skill contribution of the client-side scorer together with the weight
it adds to `factors`; `none` is the `NaN` reached when `skills_required`
is the empty array with profile skills present. -/
def clientSkillPart (skillsRequired profSkills : Option (List String)) : Option (ℚ × ℚ) :=
  match skillsRequired, profSkills with
  | some rs, some ps =>
      (jsDiv ((clientMatchingSkills rs ps).length : ℚ) (rs.length : ℚ)).map fun f =>
        (f * 100 * (0.4 : ℚ), (0.4 : ℚ))
  | _, _ => some (0, 0)

/-- Experience contribution of the client-side scorer together with its
weight; a missing or zero year count contributes nothing. -/
def clientExpPart (experienceLevel : Option String) (experienceYears : Option ℤ) : ℚ × ℚ :=
  match experienceYears with
  | some y => if y ≠ 0 then (experienceScore experienceLevel y * (0.3 : ℚ), (0.3 : ℚ))
              else (0, 0)
  | none => (0, 0)

/-- Final step of the client-side scorer: add the constant base term at
weight 0.3 and round the weighted average. -/
def clientFinish (sp ep : ℚ × ℚ) : ℤ :=
  round ((sp.1 + ep.1 + 75 * (0.3 : ℚ)) / (sp.2 + ep.2 + (0.3 : ℚ)))

/-- Client-side `calculateMatchScore` from `ApplicantJobs.tsx`: returns 0
without a profile, else skills at weight 0.4, experience at weight 0.3, a
constant 75 at weight 0.3, divided by the accumulated weight and rounded. -/
def clientMatchScore (applicantProfile : Option ApplicantProfile)
    (skillsRequired : Option (List String)) (experienceLevel : Option String) : Option ℤ :=
  match applicantProfile with
  | none => some 0
  | some profile =>
      (clientSkillPart skillsRequired profile.skills).map fun sp =>
        clientFinish sp (clientExpPart experienceLevel profile.experience_years)

/-- One quiz question as stored in the JSONB payload. -/
structure Question where
  question : String
  qtype : String
  options : List String
deriving DecidableEq

/-- Shape of the `questions` JSONB payload: either a flat ordered array or
the two-bucket object produced by the generators. -/
inductive QuestionsPayload where
  | flat (qs : List Question)
  | bucketed (work_ethics : Option (List Question)) (technical : Option (List Question))
deriving DecidableEq

/-- Question normalization of `AssessmentModal.fetchAssessment`: a flat
array is kept as is, the bucketed shape is flattened as
`[...work_ethics || [], ...technical || []]`. -/
def normalizeQuestions : QuestionsPayload → List Question
  | .flat qs => qs
  | .bucketed we te => we.getD [] ++ te.getD []

/-- Total-question count of the standalone `Assessment` page:
`(questions.work_ethics?.length || 0) + (questions.technical?.length || 0)`
(a flat array payload therefore counts 0). -/
def pageTotalQuestions : QuestionsPayload → ℕ
  | .flat _ => 0
  | .bucketed we te => (we.getD []).length + (te.getD []).length

/-- Row of the `assessments` table. -/
structure AssessmentRow where
  id : String
  application_id : String
  job_id : String
  applicant_id : String
  questions : QuestionsPayload
  status : String
  assessment_url : String
  score : Option ℤ
  responses : List (String × String)
  expires_at : ℤ
  created_at : ℤ
  updated_at : ℤ
deriving DecidableEq

/-- Row of the `applications` table (the fields the generator reads). -/
structure ApplicationRow where
  id : String
  job_id : String
  applicant_id : String
deriving DecidableEq

/-- Lookup in a string-keyed JavaScript object. -/
def jsLookup (m : List (String × String)) (k : String) : Option String :=
  (m.find? fun p => p.1 == k).map Prod.snd

/-- Answered test of `AssessmentModal.calculateScore`: the response keyed
`question_<i>` exists and is nonempty after trimming. -/
def answeredB (responses : List (String × String)) (i : ℕ) : Bool :=
  match jsLookup responses ("question_" ++ toString i) with
  | some v => v.trim != ""
  | none => false

/-- Number of answered questions out of `total` in the modal path. -/
def modalAnswered (total : ℕ) (responses : List (String × String)) : ℕ :=
  (List.range total).countP (answeredB responses)

/-- Score of `AssessmentModal.calculateScore`: completion percentage of the
normalized question list, 0 when there are no questions. -/
def modalCalculateScore (qs : List Question) (responses : List (String × String)) : ℤ :=
  let total := qs.length
  if 0 < total then round (((modalAnswered total responses : ℚ) / (total : ℚ)) * 100) else 0

/-- Score of the standalone page `handleSubmit`: completion percentage with
the answered count taken as the size of the answers object; the page has
no zero guard, so zero total questions gives the `NaN` of `0/0`,
modelled as `none`. -/
def pageScore (answers : List (String × String)) (total : ℕ) : Option ℤ :=
  if total = 0 then none
  else some (round (((answers.length : ℚ) / (total : ℚ)) * 100))

/-- Valid response keys of the standalone page: `work_ethics_<i>` for the
first bucket and `technical_<i>` for the second, as produced by its
`handleAnswerChange`. -/
def pageKeys (we te : ℕ) : List String :=
  ((List.range we).map fun i => "work_ethics_" ++ toString i) ++
    ((List.range te).map fun i => "technical_" ++ toString i)

/-- Outcome of a submission attempt. -/
inductive SubmitOutcome where
  | ok
  | errNotFound
  | errCompleted
  | errExpired
deriving DecidableEq

/-- Fetch of `AssessmentModal.fetchAssessment`: the row matching both the
assessment id and the caller's applicant id. -/
def findModal (store : List AssessmentRow) (assessmentId userId : String) :
    Option AssessmentRow :=
  store.find? fun r => r.id == assessmentId && r.applicant_id == userId

/-- Fetch of the standalone page: by assessment id only. -/
def findById (store : List AssessmentRow) (assessmentId : String) : Option AssessmentRow :=
  store.find? fun r => r.id == assessmentId

/-- Field set written by `AssessmentModal.handleSubmit`: responses, score,
status and the modification timestamp. -/
def modalUpdate (r : AssessmentRow) (responses : List (String × String)) (sc : ℤ)
    (now : ℤ) : AssessmentRow :=
  { r with responses := responses, score := some sc, status := "completed",
           updated_at := now }

/-- Submission attempt through `AssessmentModal`: the fetch-time guards
(status `completed`, then `expiresAt < now`) followed by the
unconditional update keyed by the assessment id.  The pair returns the
outcome together with the resulting store. -/
def modalSubmit (store : List AssessmentRow) (assessmentId userId : String) (now : ℤ)
    (responses : List (String × String)) : SubmitOutcome × List AssessmentRow :=
  match findModal store assessmentId userId with
  | none => (.errNotFound, store)
  | some row =>
      if row.status = "completed" then (.errCompleted, store)
      else if row.expires_at < now then (.errExpired, store)
      else
        let sc := modalCalculateScore (normalizeQuestions row.questions) responses
        (.ok, store.map fun r => if r.id == assessmentId then modalUpdate r responses sc now
                                 else r)

/-- Field set written by the standalone page `handleSubmit`: responses,
score and status; the `updated_at` column is refreshed by the database
trigger `update_assessments_updated_at`. -/
def pageUpdate (r : AssessmentRow) (answers : List (String × String)) (sc : Option ℤ)
    (now : ℤ) : AssessmentRow :=
  { r with responses := answers, score := sc, status := "completed", updated_at := now }

/-- Submission attempt through the standalone `Assessment` page: its
fetch-time guards check expiry first (`expires_at < now`), then status
`completed`, then update keyed by the assessment id. -/
def pageSubmit (store : List AssessmentRow) (assessmentId : String) (now : ℤ)
    (answers : List (String × String)) : SubmitOutcome × List AssessmentRow :=
  match findById store assessmentId with
  | none => (.errNotFound, store)
  | some row =>
      if row.expires_at < now then (.errExpired, store)
      else if row.status = "completed" then (.errCompleted, store)
      else
        let sc := pageScore answers (pageTotalQuestions row.questions)
        (.ok, store.map fun r => if r.id == assessmentId then pageUpdate r answers sc now
                                 else r)

/-- Default two-question-per-category template of the generate-assessment
function, used when the request carries no question bank. -/
def defaultQuestions : QuestionsPayload :=
  .bucketed
    (some [⟨"How do you handle tight deadlines?", "multiple_choice",
             ["Plan ahead", "Work overtime", "Ask for help", "Prioritize tasks"]⟩,
           ⟨"What motivates you at work?", "multiple_choice",
             ["Recognition", "Growth", "Team success", "Challenges"]⟩])
    (some [⟨"Your experience with required tech?", "multiple_choice",
             ["Expert level", "Intermediate", "Beginner", "No experience"]⟩,
           ⟨"Your problem-solving approach?", "multiple_choice",
             ["Research first", "Trial and error", "Ask colleagues", "Break into steps"]⟩])

/-- Seven days in epoch seconds, the `expires_at` column default
`now() + interval '7 days'` applied because the insert omits the column. -/
def sevenDays : ℤ := 7 * 24 * 60 * 60

/-- Base of the client-facing URL derived by the generator. -/
def assessmentBaseUrl : String :=
  "https://3546ba8a-43ad-441c-9ebb-78d22208b095.lovableproject.com/assessment/"

/-- Row built by the generate-assessment function: the generated identity,
`status = sent`, the provided question bank or the default template
(`questions || defaultQuestions`), and the database defaults for the
omitted columns (`score`, `responses`, `expires_at = now + 7 days`,
`created_at`, `updated_at`). -/
def genRow (application : ApplicationRow) (applicationId : String)
    (questions : Option QuestionsPayload) (freshId : String) (now : ℤ) : AssessmentRow :=
  { id := freshId
    application_id := applicationId
    job_id := application.job_id
    applicant_id := application.applicant_id
    questions := questions.getD defaultQuestions
    status := "sent"
    assessment_url := assessmentBaseUrl ++ freshId
    score := none
    responses := []
    expires_at := now + sevenDays
    created_at := now
    updated_at := now }

/-- Store effect of generate-assessment: fail on a missing application,
else append the freshly built row. -/
def generateAssessment (apps : List ApplicationRow) (store : List AssessmentRow)
    (applicationId : String) (questions : Option QuestionsPayload)
    (freshId : String) (now : ℤ) : Option (AssessmentRow × List AssessmentRow) :=
  match apps.find? fun a => a.id == applicationId with
  | none => none
  | some application =>
      some (genRow application applicationId questions freshId now,
        store ++ [genRow application applicationId questions freshId now])

/-- Fields of an assessment row not touched by either submission path. -/
def frameFields (r : AssessmentRow) :
    String × String × String × String × QuestionsPayload × String × ℤ × ℤ :=
  (r.id, r.application_id, r.job_id, r.applicant_id, r.questions, r.assessment_url,
    r.expires_at, r.created_at)

/-- Candidate entry of the recruiter's candidate list. -/
structure Candidate where
  user_id : String
  full_name : String
  email : String
deriving DecidableEq

/-- The `getAverageMatchScore` placeholder of `Candidates.tsx`:
`Math.floor(Math.random() * 40) + 60`, with the `Math.random()` draw made
an explicit parameter `rand ∈ [0, 1)`; the candidate argument is unused. -/
def getAverageMatchScore (rand : ℚ) (_candidate : Candidate) : ℤ :=
  ⌊rand * 40⌋ + 60

/-- Placeholder question used to state ordering instances. -/
def sampleQ (i : ℕ) : Question := ⟨"q" ++ toString i, "multiple_choice", []⟩

/-- Concrete already-completed assessment row used as witness input. -/
def sampleCompletedRow : AssessmentRow :=
  { id := "a1", application_id := "ap1", job_id := "j1", applicant_id := "u1",
    questions := defaultQuestions, status := "completed", assessment_url := "u",
    score := some 100, responses := [("work_ethics_0", "x")],
    expires_at := 1000, created_at := 0, updated_at := 5 }

/-- Concrete still-open assessment row used as witness input. -/
def sampleSentRow : AssessmentRow :=
  { id := "a2", application_id := "ap2", job_id := "j2", applicant_id := "u2",
    questions := defaultQuestions, status := "sent", assessment_url := "u",
    score := none, responses := [], expires_at := 1000, created_at := 0, updated_at := 0 }

/-- Concrete application row used as witness input. -/
def sampleApplication : ApplicationRow := { id := "ap1", job_id := "j1", applicant_id := "u1" }

/-- Concrete candidate used as witness input. -/
def sampleCandidate : Candidate :=
  { user_id := "u1", full_name := "Jane Doe", email := "jane@example.com" }

/-- Rounding a nonnegative rational is nonnegative. -/
lemma round_nonneg_rat {x : ℚ} (hx : 0 ≤ x) : 0 ≤ round x := by
  rw [round_eq]
  exact Int.floor_nonneg.mpr (by linarith)

/-- Rounding respects the order on `ℚ`. -/
lemma round_le_round_rat {x y : ℚ} (h : x ≤ y) : round x ≤ round y := by
  rw [round_eq, round_eq]
  exact Int.floor_mono (by linarith)

/-- Rounding a rational that is at most 100 yields at most 100. -/
lemma round_le_100 {x : ℚ} (hx : x ≤ 100) : round x ≤ 100 := by
  have h := round_le_round_rat hx
  simpa using h

/-- A list is an initial segment of itself. -/
lemma isPre_self (l : List Char) : isPre l l = true := by
  induction l with
  | nil => rfl
  | cons a t ih => simp [isPre, ih]

/-- A list occurs inside itself. -/
lemma hasSub_self (l : List Char) : hasSub l l = true := by
  cases l with
  | nil => rfl
  | cons c t => simp [hasSub, isPre_self]

/-- Every string contains itself. -/
lemma jsIncludes_self (s : String) : jsIncludes s s = true :=
  hasSub_self s.data

/-- With identical applicant and required skill lists every skill matches. -/
lemma serverMatchingSkills_self (ps : List String) :
    serverMatchingSkills ps ps = ps.map jsToLower := by
  unfold serverMatchingSkills
  apply List.filter_eq_self.mpr
  intro a ha
  exact List.any_eq_true.mpr ⟨a, ha, by simp [jsIncludes_self]⟩

/-- The experience bonus adds between 0 and 10 points. -/
lemma serverExpBoost_bounds (ey : Option ℤ) (lv : Option String) (s1 : ℚ) :
    s1 ≤ serverExpBoost ey lv s1 ∧ serverExpBoost ey lv s1 ≤ s1 + 10 := by
  unfold serverExpBoost
  rcases ey with _ | y <;> rcases lv with _ | l <;> simp <;> split_ifs <;>
    constructor <;> linarith

/-- The final clamp of the server path yields an integer in `[0, 100]` from
any nonnegative input. -/
lemma serverFinish_range {x : ℚ} (hx : 0 ≤ x) :
    0 ≤ serverFinish x ∧ serverFinish x ≤ 100 := by
  unfold serverFinish
  constructor
  · exact le_min (round_nonneg_rat hx) (by norm_num)
  · exact min_le_right _ _

/-- A capped linear branch of the experience switch stays within bounds. -/
lemma maxBranch_bounds {y c : ℚ} (hc : 0 ≤ c) (hyc : y * c ≤ 100) :
    0 ≤ max 0 (y * c) ∧ max 0 (y * c) ≤ 100 := by
  exact ⟨le_max_left _ _, max_le (by norm_num) hyc⟩

/-- The client experience sub-score lies in `[0, 100]`. -/
lemma experienceScore_bounds (lv : Option String) (y : ℤ) :
    0 ≤ experienceScore lv y ∧ experienceScore lv y ≤ 100 := by
  rcases lv with _ | l
  · norm_num [experienceScore]
  · have hred : experienceScore (some l) y =
        (if l = "entry" then (if 0 ≤ y then (100 : ℚ) else 50)
          else if l = "mid" then (if 3 ≤ y then 100 else max 0 ((y : ℚ) * 33))
          else if l = "senior" then (if 7 ≤ y then 100 else max 0 ((y : ℚ) * 14))
          else if l = "lead" then (if 10 ≤ y then 100 else max 0 ((y : ℚ) * 10))
          else 75) := rfl
    rw [hred]
    by_cases h1 : l = "entry"
    · rw [if_pos h1]
      split_ifs <;> norm_num
    · rw [if_neg h1]
      by_cases h2 : l = "mid"
      · rw [if_pos h2]
        split_ifs with h
        · norm_num
        · have hy : (y : ℚ) ≤ 2 := by exact_mod_cast (by omega : y ≤ 2)
          exact maxBranch_bounds (by norm_num) (by nlinarith)
      · rw [if_neg h2]
        by_cases h3 : l = "senior"
        · rw [if_pos h3]
          split_ifs with h
          · norm_num
          · have hy : (y : ℚ) ≤ 6 := by exact_mod_cast (by omega : y ≤ 6)
            exact maxBranch_bounds (by norm_num) (by nlinarith)
        · rw [if_neg h3]
          by_cases h4 : l = "lead"
          · rw [if_pos h4]
            split_ifs with h
            · norm_num
            · have hy : (y : ℚ) ≤ 9 := by exact_mod_cast (by omega : y ≤ 9)
              exact maxBranch_bounds (by norm_num) (by nlinarith)
          · rw [if_neg h4]
            norm_num

/-- When the skill part of the client scorer is finite, its contribution is
between 0 and 100 times its weight, and the weight is nonnegative. -/
lemma clientSkillPart_bounds {rs ps : Option (List String)} {sp : ℚ × ℚ}
    (h : clientSkillPart rs ps = some sp) :
    0 ≤ sp.1 ∧ sp.1 ≤ 100 * sp.2 ∧ 0 ≤ sp.2 := by
  rcases rs with _ | rl
  · have hsp : sp = (0, 0) := (Option.some.inj h).symm
    rw [hsp]
    norm_num
  · rcases ps with _ | pl
    · have hsp : sp = (0, 0) := (Option.some.inj h).symm
      rw [hsp]
      norm_num
    · have h' : (jsDiv ((clientMatchingSkills rl pl).length : ℚ) (rl.length : ℚ)).map
          (fun f => (f * 100 * (0.4 : ℚ), (0.4 : ℚ))) = some sp := h
      unfold jsDiv at h'
      by_cases hz : ((rl.length : ℚ)) = 0
      · rw [if_pos hz] at h'
        simp at h'
      · rw [if_neg hz] at h'
        have hsp : sp = (((clientMatchingSkills rl pl).length : ℚ) / (rl.length : ℚ) * 100
            * (0.4 : ℚ), (0.4 : ℚ)) := (Option.some.inj h').symm
        have hlen : 0 < (rl.length : ℚ) :=
          lt_of_le_of_ne (Nat.cast_nonneg rl.length) (Ne.symm hz)
        have hm : ((clientMatchingSkills rl pl).length : ℚ) ≤ (rl.length : ℚ) := by
          exact_mod_cast List.length_filter_le _ _
        have hf0 : (0 : ℚ) ≤ ((clientMatchingSkills rl pl).length : ℚ) / (rl.length : ℚ) :=
          div_nonneg (Nat.cast_nonneg _) (le_of_lt hlen)
        have hf1 : ((clientMatchingSkills rl pl).length : ℚ) / (rl.length : ℚ) ≤ 1 :=
          (div_le_one hlen).mpr hm
        rw [hsp]
        refine ⟨by nlinarith, by nlinarith, by norm_num⟩

/-- The experience part of the client scorer is between 0 and 100 times its
weight, and the weight is nonnegative. -/
lemma clientExpPart_bounds (lv : Option String) (ey : Option ℤ) :
    0 ≤ (clientExpPart lv ey).1 ∧ (clientExpPart lv ey).1 ≤ 100 * (clientExpPart lv ey).2
      ∧ 0 ≤ (clientExpPart lv ey).2 := by
  rcases ey with _ | y
  · norm_num [clientExpPart]
  · have hred : clientExpPart lv (some y) =
        (if y ≠ 0 then (experienceScore lv y * (0.3 : ℚ), (0.3 : ℚ)) else (0, 0)) := rfl
    rw [hred]
    split_ifs with h
    · have hb := experienceScore_bounds lv y
      refine ⟨by nlinarith [hb.1], by nlinarith [hb.2], by norm_num⟩
    · norm_num

/-- The rounded weighted average of the client scorer lies in `[0, 100]`
whenever each part is bounded by 100 times its weight. -/
lemma clientFinish_range {sp ep : ℚ × ℚ}
    (h1 : 0 ≤ sp.1) (h1' : sp.1 ≤ 100 * sp.2) (hw1 : 0 ≤ sp.2)
    (h2 : 0 ≤ ep.1) (h2' : ep.1 ≤ 100 * ep.2) (hw2 : 0 ≤ ep.2) :
    0 ≤ clientFinish sp ep ∧ clientFinish sp ep ≤ 100 := by
  unfold clientFinish
  have hden : (0 : ℚ) < sp.2 + ep.2 + (0.3 : ℚ) := by norm_num; linarith
  have hnum0 : (0 : ℚ) ≤ sp.1 + ep.1 + 75 * (0.3 : ℚ) := by norm_num; linarith
  have hle : (sp.1 + ep.1 + 75 * (0.3 : ℚ)) ≤ 100 * (sp.2 + ep.2 + (0.3 : ℚ)) := by
    norm_num
    linarith
  constructor
  · exact round_nonneg_rat (div_nonneg hnum0 (le_of_lt hden))
  · exact round_le_100 ((div_le_iff₀ hden).mpr (by linarith))

/-- The modal submit touches no field the modal fetch predicate reads. -/
lemma findModal_map_modalUpdate (store : List AssessmentRow) (aid uid : String)
    (resp : List (String × String)) (sc now : ℤ) :
    findModal (store.map fun r => if r.id == aid then modalUpdate r resp sc now else r) aid uid
      = (findModal store aid uid).map
          fun r => if r.id == aid then modalUpdate r resp sc now else r := by
  unfold findModal
  rw [List.find?_map]
  have hp : ((fun r : AssessmentRow => r.id == aid && r.applicant_id == uid) ∘
        fun r => if r.id == aid then modalUpdate r resp sc now else r)
      = fun r : AssessmentRow => r.id == aid && r.applicant_id == uid := by
    funext r
    by_cases h : (r.id == aid) = true <;> simp [Function.comp, h, modalUpdate]
  rw [hp]

/-- The page submit touches no field the page fetch predicate reads. -/
lemma findById_map_pageUpdate (store : List AssessmentRow) (aid : String)
    (ans : List (String × String)) (sc : Option ℤ) (now : ℤ) :
    findById (store.map fun r => if r.id == aid then pageUpdate r ans sc now else r) aid
      = (findById store aid).map
          fun r => if r.id == aid then pageUpdate r ans sc now else r := by
  unfold findById
  rw [List.find?_map]
  have hp : ((fun r : AssessmentRow => r.id == aid) ∘
        fun r => if r.id == aid then pageUpdate r ans sc now else r)
      = fun r : AssessmentRow => r.id == aid := by
    funext r
    by_cases h : (r.id == aid) = true <;> simp [Function.comp, h, pageUpdate]
  rw [hp]

/-- The modal update rewrites none of the frame fields. -/
lemma frameFields_modalUpdate (r : AssessmentRow) (resp : List (String × String))
    (sc now : ℤ) : frameFields (modalUpdate r resp sc now) = frameFields r := rfl

/-- The page update rewrites none of the frame fields. -/
lemma frameFields_pageUpdate (r : AssessmentRow) (ans : List (String × String))
    (sc : Option ℤ) (now : ℤ) : frameFields (pageUpdate r ans sc now) = frameFields r := rfl

/-- C4: for a job requiring ["React","Node.js"] at level "mid" and an
applicant with skills ["react","aws"] and 3 years of experience, the
server-side scoring path produces 85 (base 60, skill term 15, experience
bonus 10) and an analysis text carrying the label "Strong". -/
theorem serverScore_scenario_react_node_85 :
    serverMatchScore (some ["react", "aws"]) (some 3) (some ["React", "Node.js"]) (some "mid")
        = some 85
    ∧ serverAnalysis 85
        = "Candidate shows 85% compatibility with the role. Strong match based on skills and experience."
    ∧ ∃ a b : String, serverAnalysis 85 = a ++ "Strong" ++ b := by
  refine ⟨?_, rfl, ⟨"Candidate shows 85% compatibility with the role. ",
    " match based on skills and experience.", rfl⟩⟩
  have h : serverMatchingSkills ["react", "aws"] ["React", "Node.js"] = ["react"] := by decide
  norm_num [serverMatchScore, h, jsDiv, serverFinish, serverExpBoost, round_eq,
    (show ("mid" : String) ≠ "" by decide)]

/-- C6: the presentation normalization keeps a flat payload in its natural
order and flattens the two-bucket payload as all work-ethics questions in
order followed by all technical questions in order; in particular
{work_ethics := [q1, q2], technical := [q3, q4]} presents as
[q1, q2, q3, q4]. -/
theorem normalizeQuestions_order :
    (∀ we te : List Question,
        normalizeQuestions (.bucketed (some we) (some te)) = we ++ te)
    ∧ (∀ qs : List Question, normalizeQuestions (.flat qs) = qs)
    ∧ normalizeQuestions
        (.bucketed (some [sampleQ 1, sampleQ 2]) (some [sampleQ 3, sampleQ 4]))
        = [sampleQ 1, sampleQ 2, sampleQ 3, sampleQ 4] :=
  ⟨fun _ _ => rfl, fun _ => rfl, rfl⟩

/-- C9: both submission paths leave every field other than responses,
score, status and the modification timestamp unchanged on every row of
the store; in particular expires_at is never rewritten after creation. -/
theorem submit_preserves_expires_at :
    ∀ (store : List AssessmentRow) (aid uid : String) (now : ℤ)
      (resp ans : List (String × String)),
      ((modalSubmit store aid uid now resp).2).map frameFields = store.map frameFields
      ∧ ((pageSubmit store aid now ans).2).map frameFields = store.map frameFields := by
  intro store aid uid now resp ans
  constructor
  · rcases hfind : findModal store aid uid with _ | row
    · simp [modalSubmit, hfind]
    · by_cases hc : row.status = "completed"
      · simp [modalSubmit, hfind, hc]
      · by_cases he : row.expires_at < now
        · simp [modalSubmit, hfind, hc, he]
        · simp only [modalSubmit, hfind, hc, he, if_false, if_true, ite_false, ite_true]
          rw [List.map_map]
          apply List.map_congr_left
          intro a _
          by_cases hid : (a.id == aid) = true <;>
            simp [Function.comp, hid, frameFields_modalUpdate]
  · rcases hfind : findById store aid with _ | row
    · simp [pageSubmit, hfind]
    · by_cases he : row.expires_at < now
      · simp [pageSubmit, hfind, he]
      · by_cases hc : row.status = "completed"
        · simp [pageSubmit, hfind, he, hc]
        · simp only [pageSubmit, hfind, hc, he, if_false, if_true, ite_false, ite_true]
          rw [List.map_map]
          apply List.map_congr_left
          intro a _
          by_cases hid : (a.id == aid) = true <;>
            simp [Function.comp, hid, frameFields_pageUpdate]

/-- C10: the candidate-list aggregate placeholder returns an integer in
[60, 99] for every draw of Math.random in [0, 1), its value does not
depend on the candidate at all, and two calls with the same candidate can
return different values. -/
theorem getAverageMatchScore_props :
    ∀ (rand : ℚ) (c : Candidate), 0 ≤ rand → rand < 1 →
      (60 ≤ getAverageMatchScore rand c ∧ getAverageMatchScore rand c ≤ 99)
      ∧ (∀ c₂ : Candidate, getAverageMatchScore rand c = getAverageMatchScore rand c₂)
      ∧ (∃ r₁ r₂ : ℚ, 0 ≤ r₁ ∧ r₁ < 1 ∧ 0 ≤ r₂ ∧ r₂ < 1
          ∧ getAverageMatchScore r₁ c ≠ getAverageMatchScore r₂ c) := by
  intro rand c h0 h1
  refine ⟨⟨?_, ?_⟩, fun c₂ => rfl,
    ⟨0, 1/2, by norm_num, by norm_num, by norm_num, by norm_num, ?_⟩⟩
  · have hf : (0 : ℤ) ≤ ⌊rand * 40⌋ := Int.floor_nonneg.mpr (by positivity)
    unfold getAverageMatchScore
    linarith
  · have hf : ⌊rand * 40⌋ < 40 := Int.floor_lt.mpr (by push_cast; nlinarith)
    unfold getAverageMatchScore
    linarith
  · norm_num [getAverageMatchScore]

/-- C10 witness: the bounds instantiated at the draw 0 and the sample
candidate. -/
theorem getAverageMatchScore_props_witness :
    (0 : ℚ) ≤ 0 ∧ (0 : ℚ) < 1
    ∧ ((60 ≤ getAverageMatchScore 0 sampleCandidate
          ∧ getAverageMatchScore 0 sampleCandidate ≤ 99)
        ∧ (∀ c₂ : Candidate, getAverageMatchScore 0 sampleCandidate
            = getAverageMatchScore 0 c₂)
        ∧ (∃ r₁ r₂ : ℚ, 0 ≤ r₁ ∧ r₁ < 1 ∧ 0 ≤ r₂ ∧ r₂ < 1
            ∧ getAverageMatchScore r₁ sampleCandidate
              ≠ getAverageMatchScore r₂ sampleCandidate)) :=
  ⟨le_refl 0, by norm_num,
    getAverageMatchScore_props 0 sampleCandidate (le_refl 0) (by norm_num)⟩

/-- C1 counterexample: with an empty skills_required array and present
applicant skills, both scoring paths compute 0/0 and yield NaN rather
than an integer in [0, 100]; the claim fails at this input. -/
theorem matchScore_nan_on_empty_required :
    serverMatchScore (some ["react"]) (some 3) (some []) (some "mid") = none
    ∧ clientMatchScore (some ⟨some ["react"], some 3⟩) (some []) (some "mid") = none
    ∧ ¬ (∃ k : ℤ, serverMatchScore (some ["react"]) (some 3) (some []) (some "mid") = some k
          ∧ 0 ≤ k ∧ k ≤ 100) := by
  have hs : serverMatchScore (some ["react"]) (some 3) (some []) (some "mid") = none := by
    simp [serverMatchScore, jsDiv, serverMatchingSkills]
  have hc : clientMatchScore (some ⟨some ["react"], some 3⟩) (some []) (some "mid") = none := by
    simp [clientMatchScore, clientSkillPart, jsDiv, clientMatchingSkills]
  refine ⟨hs, hc, ?_⟩
  rintro ⟨k, hk, -, -⟩
  rw [hs] at hk
  exact Option.noConfusion hk

/-- C1 amended: whenever the job's skills_required list is not the empty
array while the corresponding applicant skills are present (the sole 0/0
path), both the server-side and the client-side scoring computations
return an integer in [0, 100]. -/
theorem matchScore_range_without_empty_required :
    ∀ (profileSkills : Option (List String)) (experienceYears : Option ℤ)
      (skillsRequired : Option (List String)) (experienceLevel : Option String)
      (applicantProfile : Option ApplicantProfile),
      (skillsRequired = some [] → profileSkills = none) →
      (skillsRequired = some [] → ∀ p, applicantProfile = some p → p.skills = none) →
      (∃ k : ℤ, serverMatchScore profileSkills experienceYears skillsRequired experienceLevel
          = some k ∧ 0 ≤ k ∧ k ≤ 100)
      ∧ (∃ k : ℤ, clientMatchScore applicantProfile skillsRequired experienceLevel
          = some k ∧ 0 ≤ k ∧ k ≤ 100) := by
  intro profileSkills experienceYears skillsRequired experienceLevel applicantProfile hs hc
  constructor
  · rcases hps : profileSkills with _ | ps
    · refine ⟨serverFinish (serverExpBoost experienceYears experienceLevel 60), ?_, ?_, ?_⟩
      · rcases skillsRequired with _ | rs <;> simp [serverMatchScore]
      · exact (serverFinish_range (le_trans (by norm_num)
          (serverExpBoost_bounds experienceYears experienceLevel 60).1)).1
      · exact (serverFinish_range (le_trans (by norm_num)
          (serverExpBoost_bounds experienceYears experienceLevel 60).1)).2
    · rcases hrs : skillsRequired with _ | rs
      · refine ⟨serverFinish (serverExpBoost experienceYears experienceLevel 60), ?_, ?_, ?_⟩
        · simp [serverMatchScore]
        · exact (serverFinish_range (le_trans (by norm_num)
            (serverExpBoost_bounds experienceYears experienceLevel 60).1)).1
        · exact (serverFinish_range (le_trans (by norm_num)
            (serverExpBoost_bounds experienceYears experienceLevel 60).1)).2
      · have hne : rs ≠ [] := by
          intro h
          subst h
          have hnone := hs hrs
          rw [hps] at hnone
          exact Option.noConfusion hnone
        have hlen : ((rs.map jsToLower).length : ℚ) ≠ 0 := by
          rw [List.length_map]
          exact Nat.cast_ne_zero.mpr (fun h => hne (List.length_eq_zero.mp h))
        set f : ℚ := ((serverMatchingSkills ps rs).length : ℚ) / ((rs.map jsToLower).length : ℚ)
          with hf
        have hkey : serverMatchScore (some ps) experienceYears (some rs) experienceLevel
            = some (serverFinish (serverExpBoost experienceYears experienceLevel (60 + f * 30))) := by
          simp only [serverMatchScore, jsDiv]
          rw [if_neg hlen]
          rfl
        have hf0 : 0 ≤ f := div_nonneg (Nat.cast_nonneg _)
          (le_of_lt (lt_of_le_of_ne (Nat.cast_nonneg _) (Ne.symm hlen)))
        have hs1 : (0 : ℚ) ≤ 60 + f * 30 := by nlinarith
        refine ⟨serverFinish (serverExpBoost experienceYears experienceLevel (60 + f * 30)),
          hkey, ?_, ?_⟩
        · exact (serverFinish_range (le_trans hs1
            (serverExpBoost_bounds experienceYears experienceLevel _).1)).1
        · exact (serverFinish_range (le_trans hs1
            (serverExpBoost_bounds experienceYears experienceLevel _).1)).2
  · rcases hap : applicantProfile with _ | p
    · exact ⟨0, by simp [clientMatchScore], by norm_num, by norm_num⟩
    · have hsp : ∃ sp, clientSkillPart skillsRequired p.skills = some sp := by
        rcases hrs : skillsRequired with _ | rs
        · exact ⟨(0, 0), rfl⟩
        · rcases hpsk : p.skills with _ | pl
          · exact ⟨(0, 0), rfl⟩
          · have hne : rs ≠ [] := by
              intro h
              subst h
              have hnone := hc hrs p hap
              rw [hpsk] at hnone
              exact Option.noConfusion hnone
            have hlen : ((rs.length : ℚ)) ≠ 0 :=
              Nat.cast_ne_zero.mpr (fun h => hne (List.length_eq_zero.mp h))
            refine ⟨(((clientMatchingSkills rs pl).length : ℚ) / (rs.length : ℚ) * 100
              * (0.4 : ℚ), (0.4 : ℚ)), ?_⟩
            simp only [clientSkillPart, jsDiv]
            rw [if_neg hlen]
            rfl
      rcases hsp with ⟨sp, hspEq⟩
      have hb1 := clientSkillPart_bounds hspEq
      have hb2 := clientExpPart_bounds experienceLevel p.experience_years
      have hrange := clientFinish_range hb1.1 hb1.2.1 hb1.2.2 hb2.1 hb2.2.1 hb2.2.2
      refine ⟨clientFinish sp (clientExpPart experienceLevel p.experience_years), ?_,
        hrange.1, hrange.2⟩
      simp only [clientMatchScore, hspEq]
      rfl

/-- C1 amended witness: the bounds at the concrete scenario inputs. -/
theorem matchScore_range_without_empty_required_witness :
    (∃ k : ℤ, serverMatchScore (some ["react"]) (some 3) (some ["React", "Node.js"])
        (some "mid") = some k ∧ 0 ≤ k ∧ k ≤ 100)
    ∧ (∃ k : ℤ, clientMatchScore (some ⟨some ["react"], some 3⟩)
        (some ["React", "Node.js"]) (some "mid") = some k ∧ 0 ≤ k ∧ k ≤ 100) :=
  matchScore_range_without_empty_required (some ["react"]) (some 3)
    (some ["React", "Node.js"]) (some "mid") (some ⟨some ["react"], some 3⟩)
    (fun h => absurd h (by decide)) (fun h => absurd h (by decide))

/-- C5 counterexample: an applicant whose skill list is identical to the
job's and whose years meet any threshold scores only 90 when the job sits
at "executive", the highest value of the experience-level enum, because
the server path awards the bonus only for senior, mid and junior. -/
theorem identical_skills_executive_score_90 :
    serverMatchScore (some ["react"]) (some 10) (some ["react"]) (some "executive") = some 90
    ∧ serverMatchScore (some ["react"]) (some 10) (some ["react"]) (some "executive")
        ≠ some 100 := by
  have h : serverMatchingSkills ["react"] ["react"] = ["react"] := by decide
  have h90 : serverMatchScore (some ["react"]) (some 10) (some ["react"]) (some "executive")
      = some 90 := by
    norm_num [serverMatchScore, h, jsDiv, serverFinish, serverExpBoost, round_eq,
      (show ("executive" : String) ≠ "" by decide),
      (show ("executive" : String) ≠ "senior" by decide),
      (show ("executive" : String) ≠ "mid" by decide),
      (show ("executive" : String) ≠ "junior" by decide)]
  refine ⟨h90, ?_⟩
  rw [h90]
  simp

/-- C5 amended: with a nonempty skill list identical to the requirements,
the score is exactly 100 for a senior job once the years reach 5 (the
highest bracket the scoring path recognizes), whereas the enum's top
value "executive" earns no bonus and the same profile scores 90. -/
theorem identical_skills_senior_score_100 :
    ∀ (skills : List String) (y : ℤ), skills ≠ [] → 5 ≤ y →
      serverMatchScore (some skills) (some y) (some skills) (some "senior") = some 100
      ∧ ∀ y₂ : ℤ, y₂ ≠ 0 →
          serverMatchScore (some skills) (some y₂) (some skills) (some "executive")
            = some 90 := by
  intro skills y hne hy
  have hm := serverMatchingSkills_self skills
  have hlen : ((skills.map jsToLower).length : ℚ) ≠ 0 := by
    rw [List.length_map]
    exact Nat.cast_ne_zero.mpr (fun h => hne (List.length_eq_zero.mp h))
  have hkey : ∀ (ey : Option ℤ) (lv : Option String),
      serverMatchScore (some skills) ey (some skills) lv
        = some (serverFinish (serverExpBoost ey lv 90)) := by
    intro ey lv
    simp only [serverMatchScore, jsDiv, hm]
    rw [if_neg hlen]
    have hfrac : ((skills.map jsToLower).length : ℚ) / ((skills.map jsToLower).length : ℚ)
        = 1 := div_self hlen
    simp only [Option.map_some']
    rw [hfrac]
    norm_num
  constructor
  · rw [hkey]
    have hb : serverExpBoost (some y) (some "senior") 90 = 100 := by
      simp only [serverExpBoost]
      rw [if_pos ⟨by omega, by decide⟩, if_pos ⟨by trivial, hy⟩]
      norm_num
    rw [hb]
    norm_num [serverFinish, round_eq]
  · intro y₂ hy₂
    rw [hkey]
    have hb : serverExpBoost (some y₂) (some "executive") 90 = 90 := by
      simp only [serverExpBoost]
      rw [if_pos ⟨hy₂, by decide⟩, if_neg, if_neg, if_neg]
      · exact fun hcond => absurd hcond.1 (by decide)
      · exact fun hcond => absurd hcond.1 (by decide)
      · exact fun hcond => absurd hcond.1 (by decide)
    rw [hb]
    norm_num [serverFinish, round_eq]

/-- C5 amended witness: instantiated at the one-skill list with 5 years
for senior and 7 years for executive. -/
theorem identical_skills_senior_score_100_witness :
    serverMatchScore (some ["react"]) (some 5) (some ["react"]) (some "senior") = some 100
    ∧ serverMatchScore (some ["react"]) (some 7) (some ["react"]) (some "executive")
        = some 90 := by
  have h := identical_skills_senior_score_100 ["react"] 5 (by decide) (by decide)
  exact ⟨h.1, h.2 7 (by decide)⟩

/-- C2: a submission attempt against an assessment already in status
"completed" is rejected with the terminal-state error and leaves the
store untouched, on the modal path unconditionally and on the page path
when the deadline has not also passed (its expiry check runs first); and
once a first modal submission succeeds, a second attempt against the
resulting store is rejected with the terminal-state error. -/
theorem submit_completed_rejected :
    (∀ (store : List AssessmentRow) (aid uid : String) (now : ℤ)
        (resp : List (String × String)) (row : AssessmentRow),
        findModal store aid uid = some row → row.status = "completed" →
        modalSubmit store aid uid now resp = (.errCompleted, store))
    ∧ (∀ (store : List AssessmentRow) (aid : String) (now : ℤ)
        (ans : List (String × String)) (row : AssessmentRow),
        findById store aid = some row → row.status = "completed" →
        ¬ row.expires_at < now →
        pageSubmit store aid now ans = (.errCompleted, store))
    ∧ (∀ (store : List AssessmentRow) (aid uid : String) (now₁ now₂ : ℤ)
        (resp₁ resp₂ : List (String × String)),
        (modalSubmit store aid uid now₁ resp₁).1 = .ok →
        modalSubmit ((modalSubmit store aid uid now₁ resp₁).2) aid uid now₂ resp₂
          = (.errCompleted, (modalSubmit store aid uid now₁ resp₁).2)) := by
  refine ⟨?_, ?_, ?_⟩
  · intro store aid uid now resp row hfind hstat
    simp [modalSubmit, hfind, hstat]
  · intro store aid now ans row hfind hstat hexp
    simp [pageSubmit, hfind, hstat, hexp]
  · intro store aid uid now₁ now₂ resp₁ resp₂ hok
    rcases hfind : findModal store aid uid with _ | row
    · simp [modalSubmit, hfind] at hok
    · by_cases hc : row.status = "completed"
      · simp [modalSubmit, hfind, hc] at hok
      · by_cases he : row.expires_at < now₁
        · simp [modalSubmit, hfind, hc, he] at hok
        · have hfind' : store.find? (fun r => r.id == aid && r.applicant_id == uid)
              = some row := hfind
          have hpred := List.find?_some hfind'
          rw [Bool.and_eq_true] at hpred
          have hst2 : (modalSubmit store aid uid now₁ resp₁).2
              = store.map fun r => if r.id == aid then modalUpdate r resp₁
                  (modalCalculateScore (normalizeQuestions row.questions) resp₁) now₁
                else r := by
            simp [modalSubmit, hfind, hc, he]
          have hfind2 : findModal ((modalSubmit store aid uid now₁ resp₁).2) aid uid
              = some (modalUpdate row resp₁
                  (modalCalculateScore (normalizeQuestions row.questions) resp₁) now₁) := by
            rw [hst2, findModal_map_modalUpdate, hfind, Option.map_some', if_pos hpred.1]
          have hstat2 : (modalUpdate row resp₁
              (modalCalculateScore (normalizeQuestions row.questions) resp₁) now₁).status
              = "completed" := rfl
          set st := (modalSubmit store aid uid now₁ resp₁).2 with hstEq
          simp [modalSubmit, hfind2, hstat2]

/-- C2 witness: submitting to a store holding only an already-completed
assessment is rejected with the terminal-state error. -/
theorem submit_completed_rejected_witness :
    modalSubmit [sampleCompletedRow] "a1" "u1" 10 [] = (.errCompleted, [sampleCompletedRow]) :=
  submit_completed_rejected.1 [sampleCompletedRow] "a1" "u1" 10 [] sampleCompletedRow
    (by rfl) rfl

/-- C3: a submission attempt strictly after the assessment's expiry
timestamp is rejected with no change to the store regardless of the
payload: on the page path always with the expired error, on the modal
path with the expired error whenever the record is not already completed
(its completed check runs first). -/
theorem submit_after_expiry_rejected :
    (∀ (store : List AssessmentRow) (aid : String) (now : ℤ)
        (ans : List (String × String)) (row : AssessmentRow),
        findById store aid = some row → row.expires_at < now →
        pageSubmit store aid now ans = (.errExpired, store))
    ∧ (∀ (store : List AssessmentRow) (aid uid : String) (now : ℤ)
        (resp : List (String × String)) (row : AssessmentRow),
        findModal store aid uid = some row → row.expires_at < now →
        (modalSubmit store aid uid now resp).2 = store
        ∧ ((modalSubmit store aid uid now resp).1 = .errExpired
            ∨ (modalSubmit store aid uid now resp).1 = .errCompleted)
        ∧ (row.status ≠ "completed" →
            modalSubmit store aid uid now resp = (.errExpired, store))) := by
  constructor
  · intro store aid now ans row hfind hexp
    simp [pageSubmit, hfind, hexp]
  · intro store aid uid now resp row hfind hexp
    by_cases hc : row.status = "completed"
    · refine ⟨?_, Or.inr ?_, fun hne => absurd hc hne⟩ <;>
        simp [modalSubmit, hfind, hc]
    · refine ⟨?_, Or.inl ?_, fun _ => ?_⟩ <;>
        simp [modalSubmit, hfind, hc, hexp]

/-- C3 witness: submitting one second after expiry of a sent assessment is
rejected with the expired error on both paths. -/
theorem submit_after_expiry_rejected_witness :
    pageSubmit [sampleSentRow] "a2" 1001 [] = (.errExpired, [sampleSentRow])
    ∧ modalSubmit [sampleSentRow] "a2" "u2" 1001 [] = (.errExpired, [sampleSentRow]) :=
  ⟨submit_after_expiry_rejected.1 [sampleSentRow] "a2" 1001 [] sampleSentRow
      (by rfl) (by decide),
    (submit_after_expiry_rejected.2 [sampleSentRow] "a2" "u2" 1001 [] sampleSentRow
      (by rfl) (by decide)).2.2 (by decide)⟩

/-- C7: submission scores measure completion, not correctness: the modal
score is round(100 x answered / total) with a question answered iff its
keyed response is nonempty after trimming, the page score is
round(100 x size-of-answers / total), each successful submission stores
exactly that value, and with at least one question the value is an
integer in [0, 100] (on the page path for answer keys drawn without
repetition from the valid question keys). -/
theorem submission_score_is_completion_rate :
    (∀ (qs : List Question) (resp : List (String × String)), 0 < qs.length →
        modalCalculateScore qs resp
          = round ((100 * (modalAnswered qs.length resp : ℚ)) / (qs.length : ℚ))
        ∧ 0 ≤ modalCalculateScore qs resp ∧ modalCalculateScore qs resp ≤ 100)
    ∧ (∀ (ans : List (String × String)) (we te : ℕ), 0 < we + te →
        (ans.map Prod.fst).Nodup →
        (∀ k ∈ ans.map Prod.fst, k ∈ pageKeys we te) →
        pageScore ans (we + te)
          = some (round ((100 * (ans.length : ℚ)) / ((we + te : ℕ) : ℚ)))
        ∧ ∃ s : ℤ, pageScore ans (we + te) = some s ∧ 0 ≤ s ∧ s ≤ 100)
    ∧ (∀ (store : List AssessmentRow) (aid uid : String) (now : ℤ)
        (resp : List (String × String)) (row : AssessmentRow),
        findModal store aid uid = some row → row.status ≠ "completed" →
        ¬ row.expires_at < now →
        ∀ r₂ ∈ (modalSubmit store aid uid now resp).2, r₂.id = aid →
          r₂.score = some (modalCalculateScore (normalizeQuestions row.questions) resp)
          ∧ r₂.status = "completed")
    ∧ (∀ (store : List AssessmentRow) (aid : String) (now : ℤ)
        (ans : List (String × String)) (row : AssessmentRow),
        findById store aid = some row → ¬ row.expires_at < now →
        row.status ≠ "completed" →
        ∀ r₂ ∈ (pageSubmit store aid now ans).2, r₂.id = aid →
          r₂.score = pageScore ans (pageTotalQuestions row.questions)
          ∧ r₂.status = "completed") := by
  refine ⟨?_, ?_, ?_, ?_⟩
  · intro qs resp h
    have ht : (0 : ℚ) < (qs.length : ℚ) := by exact_mod_cast h
    have ha : modalAnswered qs.length resp ≤ qs.length := by
      have := List.countP_le_length (answeredB resp) (l := List.range qs.length)
      simpa [modalAnswered, List.length_range] using this
    have haq : ((modalAnswered qs.length resp : ℚ)) ≤ (qs.length : ℚ) := by exact_mod_cast ha
    have ha0 : (0 : ℚ) ≤ (modalAnswered qs.length resp : ℚ) := Nat.cast_nonneg _
    have heq : modalCalculateScore qs resp
        = round (((modalAnswered qs.length resp : ℚ) / (qs.length : ℚ)) * 100) := by
      simp [modalCalculateScore, h]
    have hswap : ((modalAnswered qs.length resp : ℚ) / (qs.length : ℚ)) * 100
        = (100 * (modalAnswered qs.length resp : ℚ)) / (qs.length : ℚ) := by ring
    refine ⟨by rw [heq, hswap], ?_, ?_⟩
    · rw [heq]
      exact round_nonneg_rat (by positivity)
    · rw [heq]
      apply round_le_100
      have hfr : (modalAnswered qs.length resp : ℚ) / (qs.length : ℚ) ≤ 1 :=
        (div_le_one ht).mpr haq
      nlinarith
  · intro ans we te h hnodup hsub
    have hlenk : (pageKeys we te).length = we + te := by
      simp [pageKeys]
    have hle : ans.length ≤ we + te := by
      have h1 : (ans.map Prod.fst).length ≤ (pageKeys we te).length :=
        (hnodup.subperm hsub).length_le
      rw [List.length_map, hlenk] at h1
      exact h1
    have hne : we + te ≠ 0 := Nat.pos_iff_ne_zero.mp h
    have ht : (0 : ℚ) < ((we + te : ℕ) : ℚ) := by exact_mod_cast h
    have heq : pageScore ans (we + te)
        = some (round (((ans.length : ℚ) / ((we + te : ℕ) : ℚ)) * 100)) := by
      simp [pageScore, hne]
    have hswap : ((ans.length : ℚ) / ((we + te : ℕ) : ℚ)) * 100
        = (100 * (ans.length : ℚ)) / ((we + te : ℕ) : ℚ) := by ring
    refine ⟨by rw [heq, hswap], round (((ans.length : ℚ) / ((we + te : ℕ) : ℚ)) * 100),
      heq, round_nonneg_rat (by positivity), ?_⟩
    apply round_le_100
    have haq : ((ans.length : ℚ)) ≤ ((we + te : ℕ) : ℚ) := by exact_mod_cast hle
    have hfr : (ans.length : ℚ) / ((we + te : ℕ) : ℚ) ≤ 1 := (div_le_one ht).mpr haq
    nlinarith
  · intro store aid uid now resp row hfind hc he r₂ hmem hid
    have hst2 : (modalSubmit store aid uid now resp).2
        = store.map fun r => if r.id == aid then modalUpdate r resp
            (modalCalculateScore (normalizeQuestions row.questions) resp) now
          else r := by
      simp [modalSubmit, hfind, hc, he]
    rw [hst2] at hmem
    rcases List.mem_map.mp hmem with ⟨r, hr, hreq⟩
    by_cases hb : (r.id == aid) = true
    · rw [if_pos hb] at hreq
      rw [← hreq]
      exact ⟨rfl, rfl⟩
    · rw [if_neg hb] at hreq
      rw [← hreq] at hid
      exact absurd hid (by simpa using hb)
  · intro store aid now ans row hfind he hc r₂ hmem hid
    have hst2 : (pageSubmit store aid now ans).2
        = store.map fun r => if r.id == aid then pageUpdate r ans
            (pageScore ans (pageTotalQuestions row.questions)) now
          else r := by
      simp [pageSubmit, hfind, hc, he]
    rw [hst2] at hmem
    rcases List.mem_map.mp hmem with ⟨r, hr, hreq⟩
    by_cases hb : (r.id == aid) = true
    · rw [if_pos hb] at hreq
      rw [← hreq]
      exact ⟨rfl, rfl⟩
    · rw [if_neg hb] at hreq
      rw [← hreq] at hid
      exact absurd hid (by simpa using hb)

/-- C7 witness: one question with one nonempty keyed answer scores 100 and
lies inside the bounds. -/
theorem submission_score_is_completion_rate_witness :
    modalCalculateScore [sampleQ 1] [("question_0", "A")]
      = round ((100 * (modalAnswered ([sampleQ 1]).length [("question_0", "A")] : ℚ))
          / ((([sampleQ 1]).length : ℕ) : ℚ))
    ∧ 0 ≤ modalCalculateScore [sampleQ 1] [("question_0", "A")]
    ∧ modalCalculateScore [sampleQ 1] [("question_0", "A")] ≤ 100 :=
  submission_score_is_completion_rate.1 [sampleQ 1] [("question_0", "A")] (by decide)

/-- C8: generating an assessment for an existing application succeeds and
persists a row carrying the freshly generated identity (unique in the
store when the identity is fresh), status "sent" and an expiry of
creation time plus 7 days; when the request omits the question bank the
persisted payload is the fixed default template with exactly two
questions in each category. -/
theorem generateAssessment_creates_sent_row :
    ∀ (apps : List ApplicationRow) (store : List AssessmentRow) (appId : String)
      (qb : Option QuestionsPayload) (freshId : String) (now : ℤ)
      (application : ApplicationRow),
      (apps.find? fun a => a.id == appId) = some application →
      freshId ∉ store.map (fun r => r.id) →
      ∃ (row : AssessmentRow) (store₂ : List AssessmentRow),
        generateAssessment apps store appId qb freshId now = some (row, store₂)
        ∧ row.id = freshId ∧ row.status = "sent"
        ∧ row.expires_at = now + sevenDays
        ∧ row.application_id = appId ∧ row.job_id = application.job_id
        ∧ row.applicant_id = application.applicant_id
        ∧ store₂ = store ++ [row]
        ∧ store₂.countP (fun r => r.id == freshId) = 1
        ∧ (qb = none → row.questions = defaultQuestions)
        ∧ ∃ we tech : List Question,
            defaultQuestions = .bucketed (some we) (some tech)
            ∧ we.length = 2 ∧ tech.length = 2 := by
  intro apps store appId qb freshId now application hfind hfresh
  refine ⟨genRow application appId qb freshId now,
    store ++ [genRow application appId qb freshId now], ?_, rfl, rfl, rfl, rfl, rfl, rfl,
    rfl, ?_, ?_, ⟨_, _, rfl, rfl, rfl⟩⟩
  · unfold generateAssessment
    rw [hfind]
  · have hzero : store.countP (fun r => r.id == freshId) = 0 := by
      apply List.countP_eq_zero.mpr
      intro r hr
      simp only [beq_iff_eq]
      intro hid
      exact hfresh (List.mem_map.mpr ⟨r, hr, hid⟩)
    rw [List.countP_append, hzero]
    simp [genRow]
  · intro hqb
    rw [hqb]
    rfl

/-- C8 witness: generating against the sample application with no question
bank persists the default-template row. -/
theorem generateAssessment_creates_sent_row_witness :
    ∃ (row : AssessmentRow) (store₂ : List AssessmentRow),
      generateAssessment [sampleApplication] [] "ap1" none "A" 0 = some (row, store₂)
      ∧ row.id = "A" ∧ row.status = "sent"
      ∧ row.expires_at = 0 + sevenDays
      ∧ row.application_id = "ap1" ∧ row.job_id = sampleApplication.job_id
      ∧ row.applicant_id = sampleApplication.applicant_id
      ∧ store₂ = [] ++ [row]
      ∧ store₂.countP (fun r => r.id == "A") = 1
      ∧ (none = (none : Option QuestionsPayload) → row.questions = defaultQuestions)
      ∧ ∃ we tech : List Question,
          defaultQuestions = .bucketed (some we) (some tech)
          ∧ we.length = 2 ∧ tech.length = 2 :=
  generateAssessment_creates_sent_row [sampleApplication] [] "ap1" none "A" 0
    sampleApplication (by rfl) (by simp)
